import Mathlib

/-!
Shallow embedding of the video-processing pipeline of `src/server.js`
(video-understanding-app backend).

The embedding covers, faithfully to the JavaScript source:
  * the JSON value model and a model of `JSON.parse` (ECMA JSON grammar,
    restricted to what the pipeline can exercise; numbers keep their
    literal text, which no pipeline path inspects numerically);
  * the quiz extraction in `generateSummaryAndQuiz` (lines 280-306):
    markdown-fence removal by `replace(/```json\s*/g,'')` and
    `replace(/```\s*/g,'')`, the greedy regex scan
    `match(/\[\s*\{[\s\S]*\}\s*\]/)`, `JSON.parse` of the matched span,
    and the answer-key construction;
  * `analyzeVideoFrames` (lines 182-241) over an environment recording,
    for each frame file on disk, whether the OCR call and the
    description call succeed and with what text;
  * the asynchronous upload pipeline (lines 333-387) as a function of an
    environment of call outcomes, recording every successful persisted
    save, every deleted path, and what is logged.

External calls (ffmpeg, Speech-to-Text, Vision, Gemini, mongoose saves)
are the only sources of nondeterminism; each run is a pure function of an
environment that fixes its outcomes, exactly mirroring the control flow of
the source.
-/

namespace VideoApp

/-- JSON values as produced by `JSON.parse`.  Object fields keep insertion
order; duplicate keys can in principle both be stored, and field access
takes the last binding, matching `JSON.parse` semantics.  A number stores
its literal token text: no code path in `server.js` reads a numeric value
out of the parsed quiz JSON, so the IEEE-754 interpretation is never
needed. -/
inductive Json where
  | null : Json
  | bool (b : Bool) : Json
  | num (lit : String) : Json
  | str (s : String) : Json
  | arr (elems : List Json) : Json
  | obj (fields : List (String × Json)) : Json
deriving Repr

/-- JSON insignificant whitespace (ECMA-404): space, tab, LF, CR. -/
def isJsonWs (c : Char) : Bool :=
  c = ' ' || c = '\t' || c = '\n' || c = '\r'

/-- Drop leading JSON whitespace. -/
def skipJsonWs : List Char → List Char
  | c :: cs => if isJsonWs c then skipJsonWs cs else c :: cs
  | [] => []

/-- Value of a hex digit, if any. -/
def hexVal (c : Char) : Option Nat :=
  if '0' ≤ c ∧ c ≤ '9' then some (c.toNat - '0'.toNat)
  else if 'a' ≤ c ∧ c ≤ 'f' then some (c.toNat - 'a'.toNat + 10)
  else if 'A' ≤ c ∧ c ≤ 'F' then some (c.toNat - 'A'.toNat + 10)
  else none

/-- Parse the body of a JSON string, the opening quote already consumed.
Returns the decoded characters and the input remaining after the closing
quote.  Escapes follow the JSON grammar; unescaped control characters are
rejected, as `JSON.parse` rejects them. -/
def parseStringBody : List Char → Option (List Char × List Char)
  | [] => none
  | c :: cs =>
    if c = '"' then some ([], cs)
    else if c = '\\' then
      match cs with
      | '"' :: rest => (parseStringBody rest).map (fun p => ('"' :: p.1, p.2))
      | '\\' :: rest => (parseStringBody rest).map (fun p => ('\\' :: p.1, p.2))
      | '/' :: rest => (parseStringBody rest).map (fun p => ('/' :: p.1, p.2))
      | 'b' :: rest => (parseStringBody rest).map (fun p => ('\x08' :: p.1, p.2))
      | 'f' :: rest => (parseStringBody rest).map (fun p => ('\x0c' :: p.1, p.2))
      | 'n' :: rest => (parseStringBody rest).map (fun p => ('\n' :: p.1, p.2))
      | 'r' :: rest => (parseStringBody rest).map (fun p => ('\r' :: p.1, p.2))
      | 't' :: rest => (parseStringBody rest).map (fun p => ('\t' :: p.1, p.2))
      | 'u' :: h1 :: h2 :: h3 :: h4 :: rest =>
        match hexVal h1, hexVal h2, hexVal h3, hexVal h4 with
        | some a, some b, some c3, some d =>
          let n := ((a * 16 + b) * 16 + c3) * 16 + d
          (parseStringBody rest).map (fun p => (Char.ofNat n :: p.1, p.2))
        | _, _, _, _ => none
      | _ => none
    else if c.toNat < 0x20 then none
    else (parseStringBody cs).map (fun p => (c :: p.1, p.2))

/-- One or more decimal digits, returned with the rest of the input. -/
def takeDigits (cs : List Char) : List Char × List Char :=
  (cs.takeWhile Char.isDigit, cs.dropWhile Char.isDigit)

/-- Parse a JSON number token (sign, integer part without leading zeros,
optional fraction, optional exponent); returns the literal characters and
the remaining input. -/
def parseNumberToken (cs : List Char) : Option (List Char × List Char) :=
  let (sign, cs1) :=
    match cs with
    | '-' :: rest => (['-'], rest)
    | _ => (([] : List Char), cs)
  match cs1 with
  | '0' :: rest => afterInt (sign ++ ['0']) rest
  | c :: rest =>
    if c.isDigit then
      let (ds, rest2) := takeDigits rest
      afterInt (sign ++ c :: ds) rest2
    else none
  | [] => none
where
  /-- Optional fraction and exponent after the integer part. -/
  afterInt (lit : List Char) (cs : List Char) : Option (List Char × List Char) :=
    let (lit2, cs2) :=
      match cs with
      | '.' :: rest =>
        match takeDigits rest with
        | ([], _) => ((none : Option (List Char)), cs)
        | (ds, rest2) => (some (lit ++ '.' :: ds), rest2)
      | _ => (some lit, cs)
    match lit2 with
    | none => none
    | some l =>
      match cs2 with
      | 'e' :: rest => expTail (l ++ ['e']) rest
      | 'E' :: rest => expTail (l ++ ['E']) rest
      | _ => some (l, cs2)
  /-- Exponent digits with optional sign. -/
  expTail (lit : List Char) (cs : List Char) : Option (List Char × List Char) :=
    let (s, cs1) :=
      match cs with
      | '+' :: rest => (['+'], rest)
      | '-' :: rest => (['-'], rest)
      | _ => (([] : List Char), cs)
    match takeDigits cs1 with
    | ([], _) => none
    | (ds, rest) => some (lit ++ s ++ ds, rest)

mutual

/-- Parse one JSON value (fuel-bounded recursion; fuel only limits nesting
depth and `parseJsonTop` supplies more than the input length can need). -/
def parseValue : Nat → List Char → Option (Json × List Char)
  | 0, _ => none
  | fuel + 1, cs =>
    match skipJsonWs cs with
    | [] => none
    | c :: rest =>
      if c = '"' then
        match parseStringBody rest with
        | some (body, r) => some (.str (String.mk body), r)
        | none => none
      else if c = '{' then
        match skipJsonWs rest with
        | '}' :: r => some (.obj [], r)
        | _ => parseMembers fuel rest
      else if c = '[' then
        match skipJsonWs rest with
        | ']' :: r => some (.arr [], r)
        | _ => parseElems fuel rest
      else if c = 't' then
        match rest with
        | 'r' :: 'u' :: 'e' :: r => some (.bool true, r)
        | _ => none
      else if c = 'f' then
        match rest with
        | 'a' :: 'l' :: 's' :: 'e' :: r => some (.bool false, r)
        | _ => none
      else if c = 'n' then
        match rest with
        | 'u' :: 'l' :: 'l' :: r => some (.null, r)
        | _ => none
      else
        match parseNumberToken (c :: rest) with
        | some (lit, r) => some (.num (String.mk lit), r)
        | none => none

/-- Parse the non-empty element list of an array, the opening `[` already
consumed, through the closing `]`. -/
def parseElems : Nat → List Char → Option (Json × List Char)
  | 0, _ => none
  | fuel + 1, cs =>
    match parseValue fuel cs with
    | none => none
    | some (v, r) =>
      match skipJsonWs r with
      | ',' :: r2 =>
        match parseElems fuel r2 with
        | some (.arr vs, r3) => some (.arr (v :: vs), r3)
        | _ => none
      | ']' :: r2 => some (.arr [v], r2)
      | _ => none

/-- Parse the non-empty member list of an object, the opening `{` already
consumed, through the closing `}`. -/
def parseMembers : Nat → List Char → Option (Json × List Char)
  | 0, _ => none
  | fuel + 1, cs =>
    match skipJsonWs cs with
    | '"' :: r =>
      match parseStringBody r with
      | none => none
      | some (key, r1) =>
        match skipJsonWs r1 with
        | ':' :: r2 =>
          match parseValue fuel r2 with
          | none => none
          | some (v, r3) =>
            match skipJsonWs r3 with
            | ',' :: r4 =>
              match parseMembers fuel r4 with
              | some (.obj fs, r5) => some (.obj ((String.mk key, v) :: fs), r5)
              | _ => none
            | '}' :: r4 => some (.obj [(String.mk key, v)], r4)
            | _ => none
        | _ => none
    | _ => none

end

/-- Model of `JSON.parse`: one value, then only whitespace may remain. -/
def parseJsonTop (cs : List Char) : Option Json :=
  match parseValue (2 * cs.length + 4) cs with
  | some (v, rest) =>
    match skipJsonWs rest with
    | [] => some v
    | _ => none
  | none => none

/-! ### The quiz extraction of `generateSummaryAndQuiz` (server.js 280-306) -/

/-- Characters matched by the JavaScript regex class `\s` (the ASCII and
Latin-1 members; the exotic Unicode space code points never occur in the
inputs the pipeline handles). -/
def isRegexWs (c : Char) : Bool :=
  c = ' ' || c = '\t' || c = '\n' || c = '\r' || c = '\x0b' || c = '\x0c' || c = '\xa0'

/-- Number of leading `\s` characters. -/
def wsLead (cs : List Char) : Nat :=
  (cs.takeWhile isRegexWs).length

/-- Drop leading `\s` characters. -/
def dropRegexWs (cs : List Char) : List Char :=
  cs.dropWhile isRegexWs

/-- `s.replace(/PAT\s*/g, '')` for a literal pattern `PAT`: scan left to
right; at each position, if the pattern matches there, delete it together
with the greedy run of following whitespace and continue scanning after the
deleted span, else keep the character.  Fuel is the input length; every
step consumes at least one character, so it never runs out. -/
def removePatWsAux (pat : List Char) : Nat → List Char → List Char
  | 0, cs => cs
  | _ + 1, [] => []
  | fuel + 1, c :: cs =>
    if pat.isPrefixOf (c :: cs) then
      removePatWsAux pat fuel (dropRegexWs ((c :: cs).drop pat.length))
    else
      c :: removePatWsAux pat fuel cs

/-- `s.replace(/PAT\s*/g, '')` (see `removePatWsAux`). -/
def removePatWs (pat : List Char) (cs : List Char) : List Char :=
  removePatWsAux pat cs.length cs

/-- Lines 283-284: strip markdown code fences, first `/```json\s*/g`, then
`/```\s*/g`. -/
def removeFences (cs : List Char) : List Char :=
  removePatWs "```".toList (removePatWs "```json".toList cs)

/-- Tail search for the greedy part `[\s\S]*\}\s*\]` of the quiz regex:
given the characters after the matched `{`, return the index of the
closing `]` chosen by the engine — backtracking a greedy `[\s\S]*` selects
the rightmost `}` that is followed by optional whitespace and a `]`.
`idx` is the index of the head of `cs` and `best` the best candidate so
far; later candidates overwrite earlier ones. -/
def findCloseAux : List Char → Nat → Option Nat → Option Nat
  | [], _, best => best
  | c :: rest, idx, best =>
    if c = '}' then
      match dropRegexWs rest with
      | ']' :: _ => findCloseAux rest (idx + 1) (some (idx + 1 + wsLead rest))
      | _ => findCloseAux rest (idx + 1) best
    else
      findCloseAux rest (idx + 1) best

/-- Line 287, `jsonText.match(/\[\s*\{[\s\S]*\}\s*\]/)`: try each start
position left to right; at a `[` followed by optional whitespace and `{`,
find the rightmost `}` + whitespace + `]` after it (see `findCloseAux`);
on success the match is the whole span from the `[` through that `]`.
If the tail cannot complete, the engine advances the start position. -/
def jsonArrayScan : List Char → Option (List Char)
  | [] => none
  | c :: rest =>
    if c = '[' then
      match dropRegexWs rest with
      | '{' :: r =>
        match findCloseAux r 0 none with
        | some j => some (c :: (rest.take (wsLead rest) ++ '{' :: r.take (j + 1)))
        | none => jsonArrayScan rest
      | _ => jsonArrayScan rest
    else
      jsonArrayScan rest

/-- Lines 281-301: the quiz-extraction portion of `generateSummaryAndQuiz`.
Fences are stripped, the array span located, and `JSON.parse` applied to
the matched span.  Result: the parsed array's elements on full success and
`[]` in every other case — when no span is located (line 300), when
`JSON.parse` throws (line 294-297), and in the never-reached case of a
non-array parse (a `.map` on it would throw into the outer catch of
`generateSummaryAndQuiz`, which also yields an empty quiz). -/
def extractQuiz (quizText : String) : List Json :=
  match jsonArrayScan (removeFences quizText.toList) with
  | none => []
  | some m =>
    match parseJsonTop m with
    | some (.arr xs) => xs
    | _ => []

/-! ### JavaScript value rendering for the answer-key template literal -/

/-- `Array.prototype.join` / template-literal concatenation order:
JavaScript's `join(sep)` of `[a, b, c]` is `a + sep + b + sep + c`, and of
`[]` is the empty string. -/
def joinSep (sep : String) : List String → String
  | [] => ""
  | [x] => x
  | x :: y :: xs => x ++ sep ++ joinSep sep (y :: xs)

mutual

/-- String coercion of a parsed JSON value in a template literal
(`String(v)`): strings verbatim, `null`/booleans by name, numbers by their
literal, arrays element-joined with `,` (with `null` rendering empty
inside arrays), objects as `[object Object]`. -/
def jsDisplay : Json → String
  | .str s => s
  | .null => "null"
  | .bool b => if b then "true" else "false"
  | .num lit => lit
  | .arr xs => joinSep "," (jsDisplayElems xs)
  | .obj _ => "[object Object]"

/-- Element rendering inside `Array.prototype.join`: `null` (and
`undefined`) render as the empty string, anything else by `String(v)`. -/
def jsDisplayElems : List Json → List String
  | [] => []
  | .null :: xs => "" :: jsDisplayElems xs
  | x :: xs => jsDisplay x :: jsDisplayElems xs

end

/-- Property access `v[key]` on a parsed JSON value: on an object, the
last binding of the key (`JSON.parse` keeps the last duplicate); `none`
for a missing key or a non-object. -/
def jsField (j : Json) (key : String) : Option Json :=
  match j with
  | .obj fs => ((fs.filter (fun p => p.1 = key)).getLast?).map (fun p => p.2)
  | _ => none

/-- Rendering of `${v[key]}` in a template literal: `undefined` when the
key is absent, the JavaScript string coercion otherwise. -/
def fieldStr (j : Json) (key : String) : String :=
  match jsField j key with
  | some v => jsDisplay v
  | none => "undefined"

/-- Line 305: one answer-key entry,
`` `Q${i + 1}: ${q.question}\nA: ${q.correctAnswer}` `` for the question at
0-based index `i`. -/
def answerKeyEntry (i : Nat) (q : Json) : String :=
  "Q" ++ Nat.repr (i + 1) ++ ": " ++ fieldStr q "question" ++ "\nA: " ++ fieldStr q "correctAnswer"

/-- Lines 303-306: the answer key is the entries for the final question
sequence joined by a blank line (`join('\n\n')`). -/
def makeAnswerKey (qs : List Json) : String :=
  joinSep "\n\n" (qs.enum.map (fun p => answerKeyEntry p.1 p.2))

/-! ### `generateSummaryAndQuiz` (server.js 244-313) -/

/-- Outcomes of the two Gemini `generateContent` calls of one synthesis
run (`.error` models the call, or the surrounding SDK access, throwing;
`.ok` carries `response.text()`). -/
structure SynthEnv where
  summaryResult : Except String String
  quizResult : Except String String

/-- The triple returned by `generateSummaryAndQuiz`. -/
structure SynthResult where
  summary : String
  quizQuestions : List Json
  answerKey : String
deriving Repr

/-- `generateSummaryAndQuiz`: the summary call, then the quiz call, then
quiz extraction and answer-key derivation, all inside one try/catch whose
catch (lines 309-312) returns `summary = ""`, `quizQuestions = []`,
`answerKey = ""`.  A throw from either Gemini call therefore discards
everything, including an already-generated summary. -/
def generateSummaryAndQuiz (env : SynthEnv) : SynthResult :=
  match env.summaryResult with
  | .error _ => { summary := "", quizQuestions := [], answerKey := "" }
  | .ok summary =>
    match env.quizResult with
    | .error _ => { summary := "", quizQuestions := [], answerKey := "" }
    | .ok quizText =>
      let qs := extractQuiz quizText
      { summary := summary, quizQuestions := qs, answerKey := makeAnswerKey qs }

/-! ### `analyzeVideoFrames` (server.js 182-241) -/

/-- One frame file found in `/tmp/frames` after the ffmpeg sampling run,
with the outcomes of the two per-frame capability calls: `ocrResult` is
the Vision `textDetection` call (`.ok` carries
`result.fullTextAnnotation?.text || ''`), `descResult` the Gemini image
description (`.ok` carries `response.response.text()`); `.error` models
the call throwing. -/
structure FrameFile where
  path : String
  ocrResult : Except String String
  descResult : Except String String

/-- JavaScript `String.prototype.endsWith`, on characters. -/
def strEndsWith (s suf : String) : Bool :=
  suf.toList.isSuffixOf s.toList

/-- Line 192 and 196: the directory listing filtered to `.jpg` files,
then `slice(0, 5)`. -/
def selectedFrames (files : List FrameFile) : List FrameFile :=
  (files.filter (fun f => strEndsWith f.path ".jpg")).take 5

/-- Lines 201-212: the contribution of one frame to `allText` —
`detectedText + '\n'` on OCR success, nothing when the call throws (the
per-frame catch only logs). -/
def ocrPiece (f : FrameFile) : String :=
  match f.ocrResult with
  | .ok t => t ++ "\n"
  | .error _ => ""

/-- Lines 214-230: the contribution of one frame to `descriptions` — the
description text on success, nothing when the call throws. -/
def descPiece (f : FrameFile) : Option String :=
  match f.descResult with
  | .ok d => some d
  | .error _ => none

/-- Left-to-right concatenation, mirroring `allText += piece`. -/
def concatAll : List String → String
  | [] => ""
  | s :: ss => s ++ concatAll ss

/-- `analyzeVideoFrames`, given the frame files the ffmpeg sampling left
in `/tmp/frames`: at most 5 `.jpg` files are processed in listing order;
each contributes its OCR text (plus `'\n'`) to `extractedText` and its
description to the `'\n\n'`-joined `visualDescription`, with per-frame
call failures skipped by the per-frame catches.  The outer catch (lines
237-240), reached when ffmpeg/mkdir/readdir/readFileSync throws, yields
`("", "")` and is modelled by the caller passing no frames. -/
def analyzeVideoFrames (files : List FrameFile) : String × String :=
  let sel := selectedFrames files
  (concatAll (sel.map ocrPiece), joinSep "\n\n" (sel.filterMap descPiece))

/-! ### The upload pipeline (server.js 316-391) -/

/-- Line 143: the audio path is the fixed constant `/tmp/audio.wav`,
identical for every job. -/
def audioWavPath : String := "/tmp/audio.wav"

/-- Line 184: the frame directory is the fixed constant `/tmp/frames`,
identical for every job. -/
def framesDir : String := "/tmp/frames"

/-- `extractAudioFromVideo` (lines 141-151): runs ffmpeg and returns the
fixed path `/tmp/audio.wav`, or `none` when ffmpeg fails (the catch
returns `null`).  The returned path does not depend on the input video
path. -/
def extractAudioFromVideo (videoPath : String) (ffmpegOk : Bool) : Option String :=
  if ffmpegOk then some audioWavPath else none

/-- Job status (`videoProcessSchema.status`). -/
inductive Status where
  | processing : Status
  | completed : Status
  | failed : Status
deriving Repr, DecidableEq

/-- The fields of one persisted `VideoProcess` document that the pipeline
writes. -/
structure JobRecord where
  status : Status
  transcript : String
  extractedText : String
  visualDescription : String
  summary : String
  quizQuestions : List Json
  answerKey : String
  error : Option String
deriving Repr

/-- The environment of one pipeline run: the uploaded file's multer path
and the outcome of every external call the run makes, in program order.
`transcribeResult` models the Speech-to-Text call inside `transcribeAudio`
(whose own catch degrades a throw to `""`); `frameFiles` the frames
ffmpeg leaves in `/tmp/frames` together with their per-frame call
outcomes; `frameSetupOk = false` models the outer catch of
`analyzeVideoFrames` firing (mkdir/ffmpeg/readdir/readFileSync throwing).
`completionSave` is the `videoProcess.save()` on the success path, line
370 (`.error` carries `error.message`); `failureSaveOk` the save inside
the catch (line 385); `unlinkVideoOk`/`unlinkAudioOk` whether the two
`fs.unlinkSync` cleanup calls succeed. -/
structure PipelineEnv where
  videoPath : String
  ffmpegAudioOk : Bool
  transcribeResult : Except String String
  frameSetupOk : Bool
  frameFiles : List FrameFile
  synth : SynthEnv
  completionSave : Except String Unit
  failureSaveOk : Bool
  unlinkVideoOk : Bool
  unlinkAudioOk : Bool

/-- Everything observable about one pipeline run: the successful persisted
saves in order (starting with the creation save of the upload handler),
the paths actually deleted, the warning/error logging, and whether a
rejection escaped the async task unhandled. -/
structure RunOutcome where
  saves : List JobRecord
  deleted : List String
  cleanupWarnLogged : Bool
  processingErrLogged : Bool
  storeFetches : Nat
  unhandledRejection : Bool

/-- The temp paths the run acquires beyond the uploaded file: the audio
file when ffmpeg succeeds, and every sampled frame path. -/
def acquiredTempPaths (env : PipelineEnv) : List String :=
  (if env.ffmpegAudioOk then [audioWavPath] else []) ++
    (if env.frameSetupOk then env.frameFiles.map (fun f => f.path) else [])

/-- The `setImmediate` body of the upload handler (lines 333-387),
together with the creation save (line 328).  The stage functions
(`extractAudioFromVideo`, `transcribeAudio`, `analyzeVideoFrames`,
`generateSummaryAndQuiz`) each catch their own failures, so the only
throw that can reach the outer catch is the completion save; the catch
logs the error, marks the same in-memory document `failed` with the
error message (no re-fetch — the run performs no store reads at all) and
saves; a throw from that save has no handler and escapes as an unhandled
rejection.  Cleanup (lines 375-380) runs only on the success path:
`unlinkSync(videoPath)` then, if the audio file exists,
`unlinkSync(audioPath)`, both inside one try whose catch logs a warning
(so a video-unlink throw also skips the audio unlink).  No path deletes
the sampled frames. -/
def runPipeline (env : PipelineEnv) : RunOutcome :=
  let created : JobRecord :=
    { status := .processing, transcript := "", extractedText := "",
      visualDescription := "", summary := "", quizQuestions := [],
      answerKey := "", error := none }
  let audioPath := extractAudioFromVideo env.videoPath env.ffmpegAudioOk
  let transcript :=
    match audioPath with
    | some _ =>
      match env.transcribeResult with
      | .ok t => t
      | .error _ => ""
    | none => ""
  let visual :=
    if env.frameSetupOk then analyzeVideoFrames env.frameFiles else ("", "")
  let synth := generateSummaryAndQuiz env.synth
  let completedRec : JobRecord :=
    { status := .completed, transcript := transcript,
      extractedText := visual.1, visualDescription := visual.2,
      summary := synth.summary, quizQuestions := synth.quizQuestions,
      answerKey := synth.answerKey, error := none }
  match env.completionSave with
  | .ok _ =>
    let cleanup : List String × Bool :=
      if env.unlinkVideoOk then
        match audioPath with
        | some a =>
          if env.unlinkAudioOk then ([env.videoPath, a], false)
          else ([env.videoPath], true)
        | none => ([env.videoPath], false)
      else ([], true)
    { saves := [created, completedRec], deleted := cleanup.1,
      cleanupWarnLogged := cleanup.2, processingErrLogged := false,
      storeFetches := 0, unhandledRejection := false }
  | .error msg =>
    let failedRec : JobRecord := { completedRec with status := .failed, error := some msg }
    { saves := if env.failureSaveOk then [created, failedRec] else [created],
      deleted := [],
      cleanupWarnLogged := false, processingErrLogged := true,
      storeFetches := 0,
      unhandledRejection := !env.failureSaveOk }

/-- The persisted status trace of a run. -/
def statusTrace (env : PipelineEnv) : List Status :=
  (runPipeline env).saves.map (fun r => r.status)

/-- Modelled from the spec: the canonical single-question fallback that
§4.3 of the spec says the extractor returns on failure.  No such value
exists anywhere in `server.js`; it is defined here only so the spec's
claim about it can be stated and compared with the code's behaviour. -/
def specFallbackQuestion : Json :=
  Json.obj
    [("question", Json.str "What was the main topic of the video?"),
     ("options", Json.arr
        [Json.str "Topic A", Json.str "Topic B", Json.str "Topic C", Json.str "Topic D"]),
     ("correctAnswer", Json.str "Topic A")]

/-- A parsed quiz entry is well-formed when it is an object carrying a
`question` field, exactly 4 `options`, and a `correctAnswer` field —
the validation §4.3 of the spec requires of every entry. -/
def validEntry (q : Json) : Prop :=
  (jsField q "question").isSome ∧
    (∃ xs : List Json, jsField q "options" = some (Json.arr xs) ∧ xs.length = 4) ∧
    (jsField q "correctAnswer").isSome

/-- Number of newline characters in a string. -/
def nlCount (s : String) : Nat :=
  s.toList.count '\n'

/-! ### Concrete run environments used by counterexamples and witnesses -/

/-- A pipeline run, parametrised by the uploaded file's multer path: the
quiz response carries no JSON array, everything else succeeds, one
sampled frame is on disk. -/
def mkRunEnv (v : String) : PipelineEnv :=
  { videoPath := v,
    ffmpegAudioOk := true,
    transcribeResult := Except.ok "hello world",
    frameSetupOk := true,
    frameFiles := [{ path := "/tmp/frames/frame_001.jpg",
                     ocrResult := Except.ok "SLIDE TEXT",
                     descResult := Except.ok "a title slide" }],
    synth := { summaryResult := Except.ok "A short summary.",
               quizResult := Except.ok "I cannot answer that." },
    completionSave := Except.ok (),
    failureSaveOk := true,
    unlinkVideoOk := true,
    unlinkAudioOk := true }

/-- Fully successful run whose quiz response carries no JSON array. -/
def envNoJsonQuiz : PipelineEnv := mkRunEnv "/tmp/uploads/abc123"

/-- Successful run with a sampled frame on disk (cleanup behaviour). -/
def envFrameRun : PipelineEnv := mkRunEnv "/tmp/uploads/def456"

/-- Run whose completion save throws but whose failure-path save works. -/
def envSaveFails : PipelineEnv :=
  { mkRunEnv "/tmp/uploads/ghi789" with completionSave := Except.error "store write failed" }

/-- Run whose completion save and failure-path save both throw. -/
def envBothSavesFail : PipelineEnv :=
  { mkRunEnv "/tmp/uploads/jkl012" with
      completionSave := Except.error "store write failed",
      failureSaveOk := false }

/-- First of two concurrently uploaded jobs. -/
def envJobA : PipelineEnv := mkRunEnv "/tmp/uploads/job-a"

/-- Second of two concurrently uploaded jobs. -/
def envJobB : PipelineEnv := mkRunEnv "/tmp/uploads/job-b"

/-- A well-formed parsed question, as in the spec's round-trip example. -/
def sampleQuestion : Json :=
  Json.obj
    [("question", Json.str "Q?"),
     ("options", Json.arr [Json.str "A", Json.str "B", Json.str "C", Json.str "D"]),
     ("correctAnswer", Json.str "B")]

/-! ## Helper lemmas -/

/-- `Nat.digitChar` never yields a newline. -/
theorem digitChar_ne_newline (n : Nat) : Nat.digitChar n ≠ '\n' := by
  rcases Nat.lt_or_ge n 16 with h | h
  · interval_cases n <;> decide
  · have h0 : ¬ (n = 0) := by omega
    have h1 : ¬ (n = 1) := by omega
    have h2 : ¬ (n = 2) := by omega
    have h3 : ¬ (n = 3) := by omega
    have h4 : ¬ (n = 4) := by omega
    have h5 : ¬ (n = 5) := by omega
    have h6 : ¬ (n = 6) := by omega
    have h7 : ¬ (n = 7) := by omega
    have h8 : ¬ (n = 8) := by omega
    have h9 : ¬ (n = 9) := by omega
    have h10 : ¬ (n = 10) := by omega
    have h11 : ¬ (n = 11) := by omega
    have h12 : ¬ (n = 12) := by omega
    have h13 : ¬ (n = 13) := by omega
    have h14 : ¬ (n = 14) := by omega
    have h15 : ¬ (n = 15) := by omega
    simp only [Nat.digitChar, if_neg h0, if_neg h1, if_neg h2, if_neg h3, if_neg h4,
      if_neg h5, if_neg h6, if_neg h7, if_neg h8, if_neg h9, if_neg h10, if_neg h11,
      if_neg h12, if_neg h13, if_neg h14, if_neg h15]
    decide

/-- `Nat.toDigitsCore` only prepends digit characters, so it introduces no
newline. -/
theorem toDigitsCore_ne_newline (b : Nat) (f : Nat) :
    ∀ (n : Nat) (acc : List Char), (∀ c ∈ acc, c ≠ '\n') →
      ∀ c ∈ Nat.toDigitsCore b f n acc, c ≠ '\n' := by
  induction f with
  | zero =>
    intro n acc hacc c hc
    exact hacc c (by simpa [Nat.toDigitsCore] using hc)
  | succ f ih =>
    intro n acc hacc c hc
    rw [Nat.toDigitsCore] at hc
    by_cases hnb : n / b = 0
    · rw [if_pos hnb] at hc
      rcases List.mem_cons.mp hc with rfl | hmem
      · exact digitChar_ne_newline _
      · exact hacc c hmem
    · rw [if_neg hnb] at hc
      refine ih (n / b) (Nat.digitChar (n % b) :: acc) ?_ c hc
      intro c' hc'
      rcases List.mem_cons.mp hc' with rfl | h'
      · exact digitChar_ne_newline _
      · exact hacc c' h'

/-- The decimal rendering of a natural number contains no newline. -/
theorem nlCount_natRepr (n : Nat) : nlCount (Nat.repr n) = 0 := by
  unfold nlCount
  rw [List.count_eq_zero]
  exact fun h => toDigitsCore_ne_newline 10 (n + 1) n [] (by simp) '\n' h rfl

/-- Newline counting distributes over string concatenation. -/
theorem nlCount_append (a b : String) : nlCount (a ++ b) = nlCount a + nlCount b := by
  simp [nlCount, String.toList, List.count_append]

/-- An answer-key entry with newline-free field renderings contains
exactly one newline (the one between its `Q` line and its `A` line). -/
theorem answerKeyEntry_nlCount (i : Nat) (q : Json)
    (hq : nlCount (fieldStr q "question") = 0)
    (ha : nlCount (fieldStr q "correctAnswer") = 0) :
    nlCount (answerKeyEntry i q) = 1 := by
  unfold answerKeyEntry
  rw [nlCount_append, nlCount_append, nlCount_append, nlCount_append, nlCount_append,
    hq, ha, nlCount_natRepr]
  decide

/-- Newline count of a `'\n\n'`-join of one-newline entries. -/
theorem joinSep_nl :
    ∀ l : List String, (∀ e ∈ l, nlCount e = 1) → l ≠ [] →
      nlCount (joinSep "\n\n" l) = 3 * l.length - 2 := by
  intro l
  induction l with
  | nil => intro _ hne; cases hne rfl
  | cons x xs ih =>
    intro h1 _
    cases xs with
    | nil => simpa [joinSep] using h1 x (by simp)
    | cons y ys =>
      have hx : nlCount x = 1 := h1 x (by simp)
      have hrest : nlCount (joinSep "\n\n" (y :: ys)) = 3 * (y :: ys).length - 2 :=
        ih (fun e he => h1 e (by simp [he])) (by simp)
      show nlCount (x ++ "\n\n" ++ joinSep "\n\n" (y :: ys)) = _
      rw [nlCount_append, nlCount_append, hx, hrest]
      have h2 : nlCount "\n\n" = 2 := by decide
      rw [h2]
      simp only [List.length_cons]
      omega

/-- `concatAll` distributes over list append. -/
theorem concatAll_append (a b : List String) :
    concatAll (a ++ b) = concatAll a ++ concatAll b := by
  induction a with
  | nil => simp [concatAll]
  | cons x xs ih => simp [concatAll, ih, String.append_assoc]

/-- When every file is a `.jpg` and there are at most five of them, the
selection of `analyzeVideoFrames` is the whole listing. -/
theorem selectedFrames_eq_self (l : List FrameFile)
    (hall : (l.all fun fr => strEndsWith fr.path ".jpg") = true)
    (hlen : l.length ≤ 5) : selectedFrames l = l := by
  unfold selectedFrames
  rw [List.filter_eq_self.mpr (fun a ha => List.all_eq_true.mp hall a ha),
    List.take_of_length_le hlen]

/-! ## Claims -/

/-- C8: on the fenced input
`'```json\n{"questions":[{"question":"Q?","options":["A","B","C","D"],"correctAnswer":"B"}]}\n```'`
the extractor returns exactly the single parsed question object,
unchanged. -/
theorem c8_extractor_round_trip :
    extractQuiz "```json\n\x7b\"questions\":[\x7b\"question\":\"Q?\",\"options\":[\"A\",\"B\",\"C\",\"D\"],\"correctAnswer\":\"B\"\x7d]\x7d\n```"
      = [sampleQuestion] := by
  rfl

/-- C1 counterexample: on unparsable model text the extractor returns the
empty list, not the spec's canonical fallback question, and a fully
successful run whose quiz response carries no JSON persists `completed`
with an empty `quizQuestions`. -/
theorem c1_no_fallback_counterexample :
    extractQuiz "I cannot answer that." = [] ∧
      extractQuiz "I cannot answer that." ≠ [specFallbackQuestion] ∧
      (runPipeline envNoJsonQuiz).saves.map (fun r => (r.status, r.quizQuestions)) =
        [(Status.processing, []), (Status.completed, [])] := by
  refine ⟨rfl, ?_, rfl⟩
  intro h
  rw [show extractQuiz "I cannot answer that." = [] from rfl] at h
  exact List.noConfusion h

/-- C1 amended: when locating a JSON array in the model text fails, or
the located span fails to parse, the extractor returns the empty list
(the code has no fallback question), and consequently a job can reach
`completed` with an empty `quizQuestions` sequence. -/
theorem c1_failure_yields_empty_quiz :
    (∀ s : String,
        (jsonArrayScan (removeFences s.toList) = none ∨
          ∃ m, jsonArrayScan (removeFences s.toList) = some m ∧ parseJsonTop m = none) →
        extractQuiz s = []) ∧
      (runPipeline envNoJsonQuiz).saves.map (fun r => (r.status, r.quizQuestions)) =
        [(Status.processing, []), (Status.completed, [])] := by
  constructor
  · intro s h
    unfold extractQuiz
    rcases h with h | ⟨m, hm, hp⟩
    · rw [h]
    · simp only [hm, hp]
  · rfl

/-- Witness for `c1_failure_yields_empty_quiz` at the concrete input
`"no quiz here"`. -/
theorem c1_failure_yields_empty_quiz_witness :
    extractQuiz "no quiz here" = [] :=
  c1_failure_yields_empty_quiz.1 "no quiz here" (Or.inl rfl)

/-- C4 counterexample: the input `'[{"question":"Q"}]'` parses to a batch
whose only entry lacks `options` and `correctAnswer`, yet the extractor
returns that batch instead of discarding it. -/
theorem c4_partial_batch_counterexample :
    extractQuiz "[\x7b\"question\":\"Q\"\x7d]" = [Json.obj [("question", Json.str "Q")]] ∧
      ¬ validEntry (Json.obj [("question", Json.str "Q")]) := by
  refine ⟨rfl, ?_⟩
  rintro ⟨-, ⟨xs, hxs, -⟩, -⟩
  rw [show jsField (Json.obj [("question", Json.str "Q")]) "options" = none from rfl] at hxs
  exact Option.noConfusion hxs

/-- C4 amended: the extractor performs no per-entry field validation at
all — whenever a span is located and parses as a JSON array, that array's
entries are returned verbatim, whether or not any entry carries
`question`, 4 `options` and `correctAnswer`. -/
theorem c4_no_entry_validation (s : String) (m : List Char) (xs : List Json)
    (hm : jsonArrayScan (removeFences s.toList) = some m)
    (hp : parseJsonTop m = some (Json.arr xs)) :
    extractQuiz s = xs := by
  unfold extractQuiz
  simp only [hm, hp]

/-- Witness for `c4_no_entry_validation`: the field-free batch
`'[{"question":"Q"}]'` is returned as parsed. -/
theorem c4_no_entry_validation_witness :
    extractQuiz "[\x7b\"question\":\"Q\"\x7d]" = [Json.obj [("question", Json.str "Q")]] :=
  c4_no_entry_validation "[\x7b\"question\":\"Q\"\x7d]" _ _ rfl rfl

/-- C10: when the summary call succeeds but the quiz call throws, the
catch of `generateSummaryAndQuiz` returns the all-empty triple — the
already-generated summary is discarded and never escapes such a run. -/
theorem c10_summary_discarded_on_later_throw (env : SynthEnv) (s e : String)
    (hs : env.summaryResult = Except.ok s) (hq : env.quizResult = Except.error e) :
    generateSummaryAndQuiz env = { summary := "", quizQuestions := [], answerKey := "" } := by
  unfold generateSummaryAndQuiz
  rw [hs, hq]

/-- Witness for `c10_summary_discarded_on_later_throw` at a concrete
environment. -/
theorem c10_summary_discarded_witness :
    generateSummaryAndQuiz
        { summaryResult := Except.ok "A fine summary.", quizResult := Except.error "rate limited" } =
      { summary := "", quizQuestions := [], answerKey := "" } :=
  c10_summary_discarded_on_later_throw
    { summaryResult := Except.ok "A fine summary.", quizResult := Except.error "rate limited" }
    "A fine summary." "rate limited" rfl rfl

/-- C9 counterexample: two distinct job runs acquire the very same
temporary audio path `/tmp/audio.wav` and the very same frame path under
`/tmp/frames` — their temp-path sets are not disjoint. -/
theorem c9_shared_tmp_counterexample :
    envJobA.videoPath ≠ envJobB.videoPath ∧
      audioWavPath ∈ acquiredTempPaths envJobA ∧
      audioWavPath ∈ acquiredTempPaths envJobB ∧
      "/tmp/frames/frame_001.jpg" ∈ acquiredTempPaths envJobA ∧
      "/tmp/frames/frame_001.jpg" ∈ acquiredTempPaths envJobB := by
  refine ⟨by decide, by decide, by decide, by decide, by decide⟩

/-- C9 amended: the extracted-audio path is the fixed constant
`/tmp/audio.wav` for every job (independent of the job's video path), and
every run with successful audio extraction acquires it, so concurrent
jobs share it (and the fixed `/tmp/frames` directory) as cross-job
mutable state; only the uploaded video path is per-job. -/
theorem c9_audio_path_shared (v1 v2 : String) :
    extractAudioFromVideo v1 true = some audioWavPath ∧
      extractAudioFromVideo v1 true = extractAudioFromVideo v2 true ∧
      (∀ env : PipelineEnv, env.ffmpegAudioOk = true →
        audioWavPath ∈ acquiredTempPaths env) := by
  refine ⟨rfl, rfl, ?_⟩
  intro env h
  unfold acquiredTempPaths
  rw [h]
  simp

/-- Witness for `c9_audio_path_shared` at two concrete jobs. -/
theorem c9_audio_path_shared_witness :
    audioWavPath ∈ acquiredTempPaths envJobA :=
  (c9_audio_path_shared "/tmp/uploads/job-a" "/tmp/uploads/job-b").2.2 envJobA rfl

/-- C3: in every run environment the persisted status trace is one of
`[processing, completed]`, `[processing, failed]`, or `[processing]`
alone (when both saves throw) — the status only ever moves from
`processing` to a single terminal state, never reversed and never
re-entered. -/
theorem c3_status_transitions (env : PipelineEnv) :
    statusTrace env = [Status.processing, Status.completed] ∨
      statusTrace env = [Status.processing, Status.failed] ∨
      statusTrace env = [Status.processing] := by
  unfold statusTrace runPipeline
  cases h : env.completionSave with
  | ok u => left; simp [h]
  | error msg =>
    cases hf : env.failureSaveOk with
    | true => right; left; simp [h, hf]
    | false => right; right; simp [h, hf]

/-- What a run deletes, as a function of the environment: nothing unless
the completion save succeeded and the video unlink did not throw; then
the video, plus the audio file when it exists and its unlink does not
throw. -/
theorem runPipeline_deleted (env : PipelineEnv) :
    (runPipeline env).deleted =
      match env.completionSave with
      | Except.error _ => []
      | Except.ok _ =>
        if env.unlinkVideoOk then
          env.videoPath ::
            (if env.ffmpegAudioOk && env.unlinkAudioOk then [audioWavPath] else [])
        else [] := by
  obtain ⟨v, aok, tr, fsk, ff, sy, cs, fso, uv, ua⟩ := env
  cases cs <;> cases aok <;> cases uv <;> cases ua <;> rfl

/-- C5 counterexample: a fully successful run acquires a sampled frame
under `/tmp/frames` but deletes only the video and the audio file — the
frame survives the run; and a run whose completion save throws deletes
nothing at all, though it acquired the audio file. -/
theorem c5_frames_survive_counterexample :
    "/tmp/frames/frame_001.jpg" ∈ acquiredTempPaths envFrameRun ∧
      (runPipeline envFrameRun).deleted = ["/tmp/uploads/def456", audioWavPath] ∧
      "/tmp/frames/frame_001.jpg" ∉ (runPipeline envFrameRun).deleted ∧
      audioWavPath ∈ acquiredTempPaths envSaveFails ∧
      (runPipeline envSaveFails).deleted = [] := by
  refine ⟨by decide, rfl, ?_, by decide, rfl⟩
  rw [show (runPipeline envFrameRun).deleted = ["/tmp/uploads/def456", audioWavPath] from rfl]
  decide

/-- C5 amended: the only paths a run ever deletes are the uploaded video
and the fixed audio file, both on the success path only (and the audio
only when the video unlink did not throw first); sampled frame images are
never deleted, and on the failure exit path nothing is deleted. -/
theorem c5_cleanup_incomplete (env : PipelineEnv) :
    (∀ p ∈ (runPipeline env).deleted, p = env.videoPath ∨ p = audioWavPath) ∧
      (∀ e, env.completionSave = Except.error e → (runPipeline env).deleted = []) ∧
      (env.completionSave = Except.ok () → env.unlinkVideoOk = true →
        (runPipeline env).deleted =
          env.videoPath ::
            (if env.ffmpegAudioOk && env.unlinkAudioOk then [audioWavPath] else [])) := by
  refine ⟨?_, ?_, ?_⟩
  · intro p hp
    rw [runPipeline_deleted] at hp
    rcases h : env.completionSave with e | u
    · rw [h] at hp; cases hp
    · rw [h] at hp
      by_cases huv : env.unlinkVideoOk
      · rw [if_pos huv] at hp
        rcases List.mem_cons.mp hp with rfl | hp2
        · exact Or.inl rfl
        · by_cases hcond : env.ffmpegAudioOk && env.unlinkAudioOk
          · rw [if_pos hcond] at hp2
            rcases List.mem_cons.mp hp2 with rfl | hp3
            · exact Or.inr rfl
            · cases hp3
          · rw [if_neg hcond] at hp2; cases hp2
      · rw [if_neg huv] at hp; cases hp
  · intro e he
    rw [runPipeline_deleted, he]
  · intro hok huv
    rw [runPipeline_deleted, hok, if_pos huv]

/-- Witness for `c5_cleanup_incomplete` at a concrete successful run. -/
theorem c5_cleanup_incomplete_witness :
    (runPipeline envFrameRun).deleted =
      envFrameRun.videoPath ::
        (if envFrameRun.ffmpegAudioOk && envFrameRun.unlinkAudioOk then [audioWavPath] else []) :=
  (c5_cleanup_incomplete envFrameRun).2.2 rfl rfl

/-- C6 counterexample: when the completion save and the failure-path save
both throw, the run performs no store re-fetch (it performs no store
reads at all), the failure-path save's rejection escapes the async task
unhandled rather than being caught and logged, and the persisted record
remains in `processing`. -/
theorem c6_unhandled_save_failure_counterexample :
    (runPipeline envBothSavesFail).storeFetches = 0 ∧
      (runPipeline envBothSavesFail).unhandledRejection = true ∧
      statusTrace envBothSavesFail = [Status.processing] :=
  ⟨rfl, rfl, rfl⟩

/-- C6 amended: on an aborted run the orchestrator logs the original
error and marks the captured in-memory record `failed` with the error
message, saving it directly without any re-fetch (the run performs no
store reads); when that save succeeds the persisted trace ends
`failed` with the message recorded, and when it throws the rejection
escapes the async task uncaught while the persisted record remains in
`processing`. -/
theorem c6_abort_marks_in_memory_record (env : PipelineEnv) (e : String)
    (h : env.completionSave = Except.error e) :
    (runPipeline env).processingErrLogged = true ∧
      (runPipeline env).storeFetches = 0 ∧
      (env.failureSaveOk = true →
        (runPipeline env).saves.map (fun r => (r.status, r.error)) =
          [(Status.processing, none), (Status.failed, some e)]) ∧
      (env.failureSaveOk = false →
        statusTrace env = [Status.processing] ∧
          (runPipeline env).unhandledRejection = true) := by
  cases hf : env.failureSaveOk <;>
    simp [runPipeline, statusTrace, h, hf]

/-- Witness for `c6_abort_marks_in_memory_record` at a concrete run whose
completion save throws while the failure-path save succeeds. -/
theorem c6_abort_marks_witness :
    (runPipeline envSaveFails).processingErrLogged = true ∧
      (runPipeline envSaveFails).saves.map (fun r => (r.status, r.error)) =
        [(Status.processing, none), (Status.failed, some "store write failed")] := by
  have h := c6_abort_marks_in_memory_record envSaveFails "store write failed" rfl
  exact ⟨h.1, h.2.2.1 rfl⟩

/-- C2 counterexample: for the single well-formed question
`{question: "Q?", options: ["A","B","C","D"], correctAnswer: "B"}` the
code derives `"Q1: Q?\nA: B"` — two lines including the question text —
not the claimed single line `"Q1: B"`. -/
theorem c2_answer_key_format_counterexample :
    makeAnswerKey [sampleQuestion] = "Q1: Q?\nA: B" ∧
      "Q1: Q?\nA: B" ≠ "Q1: B" ∧
      nlCount (makeAnswerKey [sampleQuestion]) ≠ 0 := by
  refine ⟨rfl, by decide, ?_⟩
  rw [show makeAnswerKey [sampleQuestion] = "Q1: Q?\nA: B" from rfl]
  decide

/-- C2 amended: the answer key is the blocks
`"Q{i}: {question}\nA: {correctAnswer}"` joined by blank lines
(`'\n\n'`), so when the rendered fields are newline-free a key for `N ≥ 1`
questions contains `3N - 2` newlines (`3N - 1` lines), never the `N - 1`
newlines (`N` lines) the claim's format would give. -/
theorem c2_answer_key_amended (qs : List Json)
    (h : ∀ q ∈ qs, nlCount (fieldStr q "question") = 0 ∧
      nlCount (fieldStr q "correctAnswer") = 0)
    (hne : qs ≠ []) :
    makeAnswerKey qs = joinSep "\n\n" (qs.enum.map fun p => answerKeyEntry p.1 p.2) ∧
      nlCount (makeAnswerKey qs) = 3 * qs.length - 2 ∧
      nlCount (makeAnswerKey qs) ≠ qs.length - 1 := by
  have hent : ∀ e ∈ qs.enum.map (fun p => answerKeyEntry p.1 p.2), nlCount e = 1 := by
    intro e he
    rcases List.mem_map.mp he with ⟨p, hp, rfl⟩
    have hq := h p.2 (List.snd_mem_of_mem_enum hp)
    exact answerKeyEntry_nlCount p.1 p.2 hq.1 hq.2
  have hlen : (qs.enum.map (fun p => answerKeyEntry p.1 p.2)).length = qs.length := by
    simp
  have hne2 : qs.enum.map (fun p => answerKeyEntry p.1 p.2) ≠ [] := by
    intro hc
    apply hne
    have hl := congrArg List.length hc
    rw [hlen] at hl
    exact List.length_eq_zero.mp hl
  have hcount := joinSep_nl _ hent hne2
  rw [hlen] at hcount
  have hmk : nlCount (makeAnswerKey qs) = 3 * qs.length - 2 := hcount
  refine ⟨rfl, hmk, ?_⟩
  rw [hmk]
  have hpos : 0 < qs.length := List.length_pos.mpr hne
  omega

/-- Witness for `c2_answer_key_amended` on two concrete questions:
`3 * 2 - 2 = 4` newlines. -/
theorem c2_answer_key_amended_witness :
    nlCount (makeAnswerKey [sampleQuestion, sampleQuestion]) = 4 := by
  have h := c2_answer_key_amended [sampleQuestion, sampleQuestion] (by decide)
    (List.cons_ne_nil _ _)
  simpa using h.2.1

/-- C7: the visual stage selects at most 5 frames; each selected frame's
OCR and description outcomes contribute independently — an OCR throw or a
description throw on one frame contributes nothing for that call but
leaves every other frame's contribution and the stage itself intact — and
the surviving outputs are concatenated in frame order. -/
theorem c7_visual_stage_isolation :
    (∀ files : List FrameFile, (selectedFrames files).length ≤ 5) ∧
      (∀ (p eo ed : String) (r1 r2 : Except String String),
        ocrPiece { path := p, ocrResult := Except.error eo, descResult := r1 } = "" ∧
          descPiece { path := p, ocrResult := r2, descResult := Except.error ed } = none) ∧
      (∀ (pre post : List FrameFile) (f : FrameFile),
        ((pre ++ f :: post).all fun fr => strEndsWith fr.path ".jpg") = true →
        (pre ++ f :: post).length ≤ 5 →
        analyzeVideoFrames (pre ++ f :: post) =
          (concatAll (pre.map ocrPiece) ++ (ocrPiece f ++ concatAll (post.map ocrPiece)),
           joinSep "\n\n"
             (pre.filterMap descPiece ++ ((descPiece f).toList ++ post.filterMap descPiece)))) := by
  refine ⟨?_, ?_, ?_⟩
  · intro files
    unfold selectedFrames
    exact List.length_take_le 5 _
  · intro p eo ed r1 r2
    exact ⟨rfl, rfl⟩
  · intro pre post f hall hlen
    unfold analyzeVideoFrames
    rw [selectedFrames_eq_self _ hall hlen]
    simp only [Prod.mk.injEq]
    constructor
    · rw [List.map_append, concatAll_append, List.map_cons]
      rfl
    · rw [List.filterMap_append]
      congr 1
      cases hd : f.descResult <;>
        simp [List.filterMap_cons, descPiece, hd]

/-- Witness for `c7_visual_stage_isolation`: one frame whose OCR call
throws still yields its description, and the stage returns. -/
theorem c7_visual_stage_isolation_witness :
    analyzeVideoFrames
        [{ path := "/tmp/frames/frame_001.jpg",
           ocrResult := Except.error "vision api down",
           descResult := Except.ok "a title slide" }] =
      (concatAll ([].map ocrPiece) ++
        (ocrPiece
            { path := "/tmp/frames/frame_001.jpg",
              ocrResult := Except.error "vision api down",
              descResult := Except.ok "a title slide" } ++
          concatAll ([].map ocrPiece)),
       joinSep "\n\n"
         ([].filterMap descPiece ++
           ((descPiece
                { path := "/tmp/frames/frame_001.jpg",
                  ocrResult := Except.error "vision api down",
                  descResult := Except.ok "a title slide" }).toList ++
             [].filterMap descPiece))) :=
  c7_visual_stage_isolation.2.2 []
    []
    { path := "/tmp/frames/frame_001.jpg",
      ocrResult := Except.error "vision api down",
      descResult := Except.ok "a title slide" }
    (by decide) (by decide)

end VideoApp
